import Mathlib

/-!
# Verification of `timekeep.py`

A shallow embedding of the time-tracking utility `timekeep.py` (a single
Python file backed by a SQLite table `time_entries`), together with proofs
about its three store operations (`start_time`, `stop_time`, `get_hours`),
its schema initialization (`init_db`) and its CLI entry point (`main`).

Modelling decisions:

* The SQLite table is a `Store`: a list of rows plus the next value of the
  `AUTOINCREMENT` surrogate key.
* The code stores timestamps as ISO strings produced by
  `datetime.now().isoformat()` and touches them only through two
  projections: `strftime('%m', t)` (the two-digit month component, used by
  the report filter) and `julianday(t)` (a fractional day count, used for
  durations).  A `Timestamp` therefore carries exactly these two
  projections: its `month` component (a `Nat`; `1..12` for genuine
  wall-clock datetimes) and its julian-day value `jd` (a `ℚ`, exact).
  `strftime('%m', ...)` has no year in it, so month filtering is
  year-blind by construction, as in the code.
* `datetime.now()` is an input: each operation that calls it takes the
  current timestamp as an explicit argument.
* Every operation returns its observable outcome (which print branch was
  taken, which rows were touched) together with the store it leaves
  behind; `get_hours` only executes a `SELECT`, so it hands the store
  back unchanged.
-/

/-- A timestamp, abstracted to the two projections the SQL uses:
`month` is the `strftime('%m', ·)` component (no year), `jd` the
`julianday(·)` value in fractional days. -/
structure Timestamp where
  month : Nat
  jd : ℚ
deriving DecidableEq

/-- One row of the `time_entries` table. -/
structure TimeEntry where
  id : Nat
  label : String
  start_time : Timestamp
  end_time : Option Timestamp
deriving DecidableEq

/-- The `time_entries` table plus the next `AUTOINCREMENT` id. -/
structure Store where
  entries : List TimeEntry
  nextId : Nat
deriving DecidableEq

/-- The freshly created table: no rows, ids start at 1. -/
def emptyStore : Store := { entries := [], nextId := 1 }

/-- `init_db`: `CREATE TABLE IF NOT EXISTS time_entries (...)`.  The
argument is `none` when the table does not exist yet. -/
def init_db : Option Store → Store
  | none => emptyStore
  | some s => s

/-- The row predicate `label = ? AND end_time IS NULL` used by both the
`SELECT` in `start_time` and the `UPDATE` in `stop_time`. -/
def isOpenFor (label : String) (e : TimeEntry) : Bool :=
  e.label == label && e.end_time.isNone

/-- Observable outcome of `start_time`: either the inserted row's id, or
the `"Error: Active session already exists"` branch. -/
inductive StartResult where
  | started (id : Nat)
  | alreadyActive
deriving DecidableEq

/-- `start_time(label)`: if `SELECT id FROM time_entries WHERE label = ?
AND end_time IS NULL` returns a row, print the error and leave the store
alone; otherwise `INSERT INTO time_entries (label, start_time) VALUES
(?, now)` (so `end_time` is NULL). -/
def start_time (label : String) (now : Timestamp) (s : Store) :
    StartResult × Store :=
  if s.entries.any (isOpenFor label) then
    (StartResult.alreadyActive, s)
  else
    (StartResult.started s.nextId,
      { entries := s.entries ++
          [{ id := s.nextId, label := label, start_time := now,
             end_time := none }],
        nextId := s.nextId + 1 })

/-- Observable outcome of `stop_time`: the `UPDATE`'s rowcount when it is
nonzero, or the `"Error: No active session found"` branch. -/
inductive StopResult where
  | stopped (rowcount : Nat)
  | noActive
deriving DecidableEq

/-- The effect of `UPDATE time_entries SET end_time = ? WHERE label = ?
AND end_time IS NULL` on a single row. -/
def stopUpdate (label : String) (now : Timestamp) (e : TimeEntry) :
    TimeEntry :=
  if isOpenFor label e then { e with end_time := some now } else e

/-- `stop_time(label)`: run the `UPDATE` on every row; report the error
branch exactly when its rowcount is 0. -/
def stop_time (label : String) (now : Timestamp) (s : Store) :
    StopResult × Store :=
  let rowcount := (s.entries.filter (isOpenFor label)).length
  ((if rowcount = 0 then StopResult.noActive
    else StopResult.stopped rowcount),
    { s with entries := s.entries.map (stopUpdate label now) })

/-- Python's `str(n).zfill(2)`, and equally SQLite's `strftime('%m', ·)`
rendering of a month component. -/
def zfill2 (n : Nat) : String :=
  if n < 10 then "0" ++ toString n else toString n

/-- `julianday` of a timestamp (the model carries it directly). -/
def julianday (t : Timestamp) : ℚ := t.jd

/-- `(julianday(end_time) - julianday(start_time)) * 24` for one row;
0 for an open row (never used on open rows: the report filters them
out). -/
def entryHours (e : TimeEntry) : ℚ :=
  match e.end_time with
  | some t => (julianday t - julianday e.start_time) * 24
  | none => 0

/-- The report's month filter `strftime('%m', start_time) = ?` with the
parameter `str(month).zfill(2)`. -/
def monthMatches (month : Nat) (e : TimeEntry) : Bool :=
  zfill2 e.start_time.month == zfill2 month

/-- Deduplication keeping first occurrences: the order in which
`GROUP BY label` groups appear is implementation-defined, and the spec
puts no ordering in the contract; the model picks first-occurrence
order. -/
def firstDedup (xs : List String) : List String :=
  xs.foldl (fun acc x => if x ∈ acc then acc else acc ++ [x]) []

/-- `get_hours(month)`: `SELECT label, SUM((julianday(end_time) -
julianday(start_time)) * 24) FROM time_entries WHERE strftime('%m',
start_time) = ? AND end_time IS NOT NULL GROUP BY label`.  Purely a
read: the store is handed back as is. -/
def get_hours (month : Nat) (s : Store) : List (String × ℚ) × Store :=
  let selected := s.entries.filter
    (fun e => monthMatches month e && e.end_time.isSome)
  let labels := firstDedup (selected.map (fun e => e.label))
  (labels.map (fun l =>
      (l, ((selected.filter (fun e => e.label == l)).map entryHours).sum)),
    s)

/-- The three CLI actions. -/
inductive CliAction where
  | start
  | stop
  | hours
deriving DecidableEq

/-- `main` after argument parsing: `label` and `month` are the parsed
`-l` and `-m` values (defaults `"work"` and the current month).  It
always runs `init_db` first.  `sys.exit(1)` is taken only on the
validation branches (`not args.label`; `not args.month or not (1 <=
args.month <= 12)`); otherwise the action runs, prints its outcome, and
the process falls off the end of `main`, exiting 0. -/
def cliMain (a : CliAction) (label : String) (month : Nat) (now : Timestamp)
    (db : Option Store) : Nat × Store :=
  let s := init_db db
  match a with
  | CliAction.start =>
      if label = "" then (1, s) else (0, (start_time label now s).2)
  | CliAction.stop =>
      if label = "" then (1, s) else (0, (stop_time label now s).2)
  | CliAction.hours =>
      if month = 0 || !(decide (1 ≤ month) && decide (month ≤ 12)) then
        (1, s)
      else (0, (get_hours month s).2)

/-! ### Concrete stores and spec-side notions used in the statements -/

/-- A store holding two open `"work"` entries at once (the state §3's
invariant forbids, reachable only by external tampering). -/
def twoOpenStore : Store :=
  { entries := [
      { id := 1, label := "work", start_time := ⟨1, 0⟩, end_time := none },
      { id := 2, label := "work", start_time := ⟨1, 1⟩, end_time := none }],
    nextId := 3 }

/-- A store with one open `"work"` entry, started in month 1. -/
def oneOpenStore : Store :=
  { entries := [{ id := 1, label := "work", start_time := ⟨1, 0⟩,
                  end_time := none }], nextId := 2 }

/-- A store with one closed `"work"` entry of one hour in month 7. -/
def julyStore : Store :=
  { entries := [{ id := 1, label := "work", start_time := ⟨7, 0⟩,
                  end_time := some ⟨7, (1 : ℚ)/24⟩ }], nextId := 2 }

/-- §3 invariant: at most one open entry per label. -/
def atMostOneOpen (s : Store) : Prop :=
  ∀ label : String, (s.entries.filter (isOpenFor label)).length ≤ 1

/-- §3 invariant, relationally: an `end_time` once set is never modified
or cleared — the closed row survives into the next store with the same
id, label, start and end. -/
def endTimesPreserved (s s' : Store) : Prop :=
  ∀ e ∈ s.entries, ∀ t : Timestamp, e.end_time = some t →
    ∃ e' ∈ s'.entries, e'.id = e.id ∧ e'.label = e.label ∧
      e'.start_time = e.start_time ∧ e'.end_time = some t

/-- The spec's description of one label's report line, stated from §4.1's
words: over the entries that are closed and whose `start_time` has month
component `m` (any year) and whose label is the given one, sum the exact
real-valued durations in fractional hours. -/
def specHours (m : Nat) (label : String) (s : Store) : ℚ :=
  ((s.entries.filter (fun e =>
      e.label == label && e.end_time.isSome &&
        e.start_time.month == m)).map entryHours).sum

/-! ## Basic lemmas about the row predicate -/

theorem isOpenFor_iff (label : String) (e : TimeEntry) :
    isOpenFor label e = true ↔ e.label = label ∧ e.end_time = none := by
  simp [isOpenFor, Option.isNone_iff_eq_none]

theorem isOpenFor_eq_false_iff (label : String) (e : TimeEntry) :
    isOpenFor label e = false ↔ ¬(e.label = label ∧ e.end_time = none) := by
  rw [← isOpenFor_iff label e]
  cases isOpenFor label e <;> simp

/-- Counting helper: mapping a function over a list cannot increase the
number of elements satisfying `q` beyond the number that satisfied `p`,
when `q` after the map implies `p` before it. -/
theorem length_filter_map_le {α β : Type} (p : α → Bool) (q : β → Bool)
    (f : α → β) (h : ∀ e, q (f e) = true → p e = true) (xs : List α) :
    ((xs.map f).filter q).length ≤ (xs.filter p).length := by
  induction xs with
  | nil => simp
  | cons a t ih =>
    rw [List.map_cons, List.filter_cons, List.filter_cons]
    by_cases hq : q (f a) = true
    · rw [if_pos hq, if_pos (h a hq)]
      simpa using ih
    · rw [if_neg hq]
      by_cases hp : p a = true
      · rw [if_pos hp]
        exact le_trans ih (by simp)
      · rw [if_neg hp]
        exact ih

/-- Counting helper, other direction: every element satisfying `p` still
satisfies `q` after the map, so the count cannot drop. -/
theorem le_length_filter_map {α β : Type} (p : α → Bool) (q : β → Bool)
    (f : α → β) (h : ∀ e, p e = true → q (f e) = true) (xs : List α) :
    (xs.filter p).length ≤ ((xs.map f).filter q).length := by
  induction xs with
  | nil => simp
  | cons a t ih =>
    rw [List.map_cons, List.filter_cons, List.filter_cons]
    by_cases hp : p a = true
    · rw [if_pos hp, if_pos (h a hp)]
      simpa using ih
    · rw [if_neg hp]
      by_cases hq : q (f a) = true
      · rw [if_pos hq]
        exact le_trans ih (by simp)
      · rw [if_neg hq]
        exact ih

/-! ## Claim C3: start -/

/-- C3: for every store and non-empty label, if an entry with that label
and absent `end_time` exists then `start_time` reports
`SessionAlreadyActive` and leaves the store untouched; otherwise it
succeeds, returning the fresh id, and appends exactly one new entry with
that label, `start_time = now` and `end_time` absent. -/
theorem start_time_correct (label : String) (now : Timestamp) (s : Store)
    (_hl : label ≠ "") :
    ((∃ e ∈ s.entries, e.label = label ∧ e.end_time = none) →
        start_time label now s = (StartResult.alreadyActive, s)) ∧
    ((∀ e ∈ s.entries, ¬(e.label = label ∧ e.end_time = none)) →
        (start_time label now s).1 = StartResult.started s.nextId ∧
        (start_time label now s).2.entries = s.entries ++
          [{ id := s.nextId, label := label, start_time := now,
             end_time := none }] ∧
        (start_time label now s).2.nextId = s.nextId + 1) := by
  constructor
  · rintro ⟨e, he, hprop⟩
    have hany : s.entries.any (isOpenFor label) = true :=
      List.any_eq_true.mpr ⟨e, he, (isOpenFor_iff label e).mpr hprop⟩
    simp [start_time, hany]
  · intro h
    have hany : s.entries.any (isOpenFor label) = false := by
      rw [List.any_eq_false]
      intro e he
      rw [isOpenFor_iff]
      exact h e he
    refine ⟨?_, ?_, ?_⟩ <;> simp [start_time, hany]

/-- Witness for C3: on the empty store, `start_time "work"` succeeds and
inserts the single expected row. -/
theorem start_time_correct_witness :
    (start_time "work" ⟨5, 10⟩ emptyStore).1 = StartResult.started 1 ∧
    (start_time "work" ⟨5, 10⟩ emptyStore).2.entries =
      [{ id := 1, label := "work", start_time := ⟨5, 10⟩,
         end_time := none }] := by
  have h := (start_time_correct "work" ⟨5, 10⟩ emptyStore
    (by decide)).2 (by simp [emptyStore])
  exact ⟨h.1, by rw [h.2.1]; rfl⟩

/-! ## Claim C4: stop with no active session -/

/-- C4: for every store and non-empty label with no open entry for that
label, `stop_time` reports `NoActiveSession` and leaves the store
completely unchanged (the `UPDATE` matches no row). -/
theorem stop_time_no_active (label : String) (now : Timestamp) (s : Store)
    (_hl : label ≠ "")
    (h : ∀ e ∈ s.entries, ¬(e.label = label ∧ e.end_time = none)) :
    stop_time label now s = (StopResult.noActive, s) := by
  have hfil : s.entries.filter (isOpenFor label) = [] := by
    rw [List.filter_eq_nil_iff]
    intro e he
    rw [isOpenFor_iff]
    exact h e he
  have hmap : s.entries.map (stopUpdate label now) = s.entries := by
    have hid : ∀ e ∈ s.entries, stopUpdate label now e = e := by
      intro e he
      have hf : isOpenFor label e = false :=
        (isOpenFor_eq_false_iff label e).mpr (h e he)
      simp [stopUpdate, hf]
    calc s.entries.map (stopUpdate label now)
        = s.entries.map id := List.map_congr_left hid
      _ = s.entries := List.map_id _
  simp [stop_time, hfil, hmap]

/-- Witness for C4: stopping `"ghost"` on the empty store fails with
`NoActiveSession` and returns the store as it was. -/
theorem stop_time_no_active_witness :
    stop_time "ghost" ⟨1, 0⟩ emptyStore = (StopResult.noActive, emptyStore) :=
  stop_time_no_active "ghost" ⟨1, 0⟩ emptyStore (by decide)
    (by simp [emptyStore])

/-! ## Claim C10: stop with open sessions closes all of them -/

/-- C10: whenever at least one open entry for the label exists,
`stop_time` reports success with the `UPDATE`'s rowcount, and
entry-by-entry it sets `end_time := now` (one identical timestamp,
captured once before the `UPDATE`) on exactly the open entries with that
label, leaving ids, labels, start times and all other entries
unchanged. -/
theorem stop_time_closes_all (label : String) (now : Timestamp) (s : Store)
    (h : 1 ≤ (s.entries.filter (isOpenFor label)).length) :
    (stop_time label now s).1 =
      StopResult.stopped (s.entries.filter (isOpenFor label)).length ∧
    List.Forall₂ (fun e e' =>
        e'.id = e.id ∧ e'.label = e.label ∧ e'.start_time = e.start_time ∧
        e'.end_time = if e.label = label ∧ e.end_time = none then some now
          else e.end_time)
      s.entries (stop_time label now s).2.entries := by
  constructor
  · have hne : (s.entries.filter (isOpenFor label)).length ≠ 0 := by omega
    simp [stop_time, hne]
  · show List.Forall₂ _ s.entries (s.entries.map (stopUpdate label now))
    rw [List.forall₂_map_right_iff, List.forall₂_same]
    intro e _
    by_cases hc : e.label = label ∧ e.end_time = none
    · have ht : isOpenFor label e = true := (isOpenFor_iff label e).mpr hc
      simp [stopUpdate, ht, hc]
    · have hf : isOpenFor label e = false :=
        (isOpenFor_eq_false_iff label e).mpr hc
      simp [stopUpdate, hf, hc]

/-- Witness for C10: a store with a single open `"work"` entry; stopping
reports rowcount 1. -/
theorem stop_time_closes_all_witness :
    (stop_time "work" ⟨3, 1⟩
        { entries := [{ id := 1, label := "work", start_time := ⟨3, 0⟩,
                        end_time := none }], nextId := 2 }).1 =
      StopResult.stopped 1 :=
  (stop_time_closes_all "work" ⟨3, 1⟩
    { entries := [{ id := 1, label := "work", start_time := ⟨3, 0⟩,
                    end_time := none }], nextId := 2 } (by decide)).1

/-! ## Claim C2: stop with several open sessions -/

/-- Counterexample to C2: with two open `"work"` entries, `stop_time`
silently closes BOTH (rowcount 2, both rows get `end_time` set) and
reports plain success, not a distinct consistency violation and not an
update of exactly one entry. -/
theorem stop_time_multiple_counterexample :
    (stop_time "work" ⟨1, 2⟩ twoOpenStore).1 = StopResult.stopped 2 ∧
    (stop_time "work" ⟨1, 2⟩ twoOpenStore).2.entries =
      [{ id := 1, label := "work", start_time := ⟨1, 0⟩,
         end_time := some ⟨1, 2⟩ },
       { id := 2, label := "work", start_time := ⟨1, 1⟩,
         end_time := some ⟨1, 2⟩ }] := by
  constructor <;> rfl

/-- C2 as amended: when more than one open entry exists for the label,
`stop_time` closes all of them with the same timestamp and reports plain
success with the full rowcount; at least two rows end up carrying the
stop timestamp. -/
theorem stop_time_multiple_open (label : String) (now : Timestamp)
    (s : Store) (h : 2 ≤ (s.entries.filter (isOpenFor label)).length) :
    (stop_time label now s).1 =
      StopResult.stopped (s.entries.filter (isOpenFor label)).length ∧
    2 ≤ ((stop_time label now s).2.entries.filter
          (fun e => e.label == label && decide (e.end_time = some now))).length := by
  constructor
  · have hne : (s.entries.filter (isOpenFor label)).length ≠ 0 := by omega
    simp [stop_time, hne]
  · refine le_trans h ?_
    show _ ≤ ((s.entries.map (stopUpdate label now)).filter _).length
    apply le_length_filter_map
    intro e hp
    rcases (isOpenFor_iff label e).mp hp with ⟨h1, _⟩
    simp [stopUpdate, hp, h1]

/-- Witness for the amended C2 at the concrete two-open store. -/
theorem stop_time_multiple_open_witness :
    (stop_time "work" ⟨1, 2⟩ twoOpenStore).1 = StopResult.stopped 2 ∧
    2 ≤ ((stop_time "work" ⟨1, 2⟩ twoOpenStore).2.entries.filter
          (fun e => e.label == "work" &&
            decide (e.end_time = some ⟨1, 2⟩))).length := by
  have h := stop_time_multiple_open "work" ⟨1, 2⟩ twoOpenStore (by decide)
  exact ⟨h.1, h.2⟩

/-! ## Claim C1: process exit codes -/

/-- Counterexample to C1: with an open `"work"` session already present,
`start work` takes the `SessionAlreadyActive` branch yet the process
exits 0 (`start_time` merely prints the error and returns; `main` never
reaches a `sys.exit` on that path), and likewise `stop ghost` with no
open `"ghost"` session exits 0. -/
theorem exit_code_counterexample :
    oneOpenStore.entries.filter (isOpenFor "work") ≠ [] ∧
    (cliMain CliAction.start "work" 1 ⟨1, 1⟩ (some oneOpenStore)).1 = 0 ∧
    oneOpenStore.entries.filter (isOpenFor "ghost") = [] ∧
    (cliMain CliAction.stop "ghost" 1 ⟨1, 1⟩ (some oneOpenStore)).1 = 0 := by
  exact ⟨by decide, rfl, by decide, rfl⟩

/-- C1 as amended: with a non-empty label, the `start` and `stop`
commands ALWAYS exit with status 0 — on success and equally on
`SessionAlreadyActive` / `NoActiveSession`, which are only reported by a
printed message; a non-zero exit arises only from argument validation
(empty label for `start`/`stop`, month outside `[1,12]` for `hours`). -/
theorem exit_codes (label : String) (month : Nat) (now : Timestamp)
    (db : Option Store) (hl : label ≠ "") :
    (cliMain CliAction.start label month now db).1 = 0 ∧
    (cliMain CliAction.stop label month now db).1 = 0 ∧
    (cliMain CliAction.start "" month now db).1 = 1 ∧
    (cliMain CliAction.stop "" month now db).1 = 1 ∧
    (¬(1 ≤ month ∧ month ≤ 12) →
      (cliMain CliAction.hours label month now db).1 = 1) ∧
    ((1 ≤ month ∧ month ≤ 12) →
      (cliMain CliAction.hours label month now db).1 = 0) := by
  refine ⟨by simp [cliMain, hl], by simp [cliMain, hl], by simp [cliMain],
    by simp [cliMain], ?_, ?_⟩
  · intro hm
    have hcond : (decide (month = 0) ||
        !(decide (1 ≤ month) && decide (month ≤ 12))) = true := by
      by_cases h0 : month = 0
      · simp [h0]
      · simp only [Bool.or_eq_true, Bool.not_eq_true', Bool.and_eq_false_iff,
          decide_eq_true_eq, decide_eq_false_iff_not]
        omega
    show (if (decide (month = 0) ||
        !(decide (1 ≤ month) && decide (month ≤ 12))) = true
      then ((1 : Nat), init_db db)
      else (0, (get_hours month (init_db db)).2)).1 = 1
    rw [if_pos hcond]
  · intro hm
    have hcond : (decide (month = 0) ||
        !(decide (1 ≤ month) && decide (month ≤ 12))) = false := by
      have h0 : month ≠ 0 := by omega
      simp [h0, hm.1, hm.2]
    show (if (decide (month = 0) ||
        !(decide (1 ≤ month) && decide (month ≤ 12))) = true
      then ((1 : Nat), init_db db)
      else (0, (get_hours month (init_db db)).2)).1 = 0
    rw [if_neg (fun hc => by rw [hcond] at hc; simp at hc)]

/-- Witness for the amended C1: a fresh database, `start work` and
`stop work` both exit 0 (the latter hitting `NoActiveSession`). -/
theorem exit_codes_witness :
    (cliMain CliAction.start "work" 1 ⟨1, 0⟩ none).1 = 0 ∧
    (cliMain CliAction.stop "work" 1 ⟨1, 0⟩ none).1 = 0 :=
  ⟨(exit_codes "work" 1 ⟨1, 0⟩ none (by decide)).1,
   (exit_codes "work" 1 ⟨1, 0⟩ none (by decide)).2.1⟩

/-! ## Claim C7: the operations preserve the store invariants -/

/-- C7: each of the three operations preserves both §3 invariants: if at
most one open entry per label exists before, the same holds after, and
every already-closed entry survives unchanged. -/
theorem operations_preserve_invariants (label : String) (month : Nat)
    (now : Timestamp) (s : Store) (h : atMostOneOpen s) :
    atMostOneOpen (start_time label now s).2 ∧
    atMostOneOpen (stop_time label now s).2 ∧
    atMostOneOpen (get_hours month s).2 ∧
    endTimesPreserved s (start_time label now s).2 ∧
    endTimesPreserved s (stop_time label now s).2 ∧
    endTimesPreserved s (get_hours month s).2 := by
  refine ⟨?_, ?_, ?_, ?_, ?_, ?_⟩
  · intro l
    cases hany : s.entries.any (isOpenFor label) with
    | true => simpa [start_time, hany] using h l
    | false =>
      simp only [start_time, hany, Bool.false_eq_true, if_false]
      rw [List.filter_append]
      by_cases hll : l = label
      · subst hll
        have h1 : s.entries.filter (isOpenFor l) = [] := by
          rw [List.filter_eq_nil_iff]
          intro e he
          simpa using List.any_eq_false.mp hany e he
        rw [h1]
        simp [isOpenFor]
      · have h2 : isOpenFor l
            { id := s.nextId, label := label, start_time := now,
              end_time := none } = false := by
          simp only [isOpenFor, Option.isNone_none, Bool.and_true]
          rw [beq_eq_false_iff_ne]
          exact fun hc => hll hc.symm
        rw [List.length_append]
        have h3 : (List.filter (isOpenFor l)
            ([{ id := s.nextId, label := label, start_time := now,
                end_time := none }] : List TimeEntry)).length = 0 := by
          simp [h2]
        have h4 := h l
        omega
  · intro l
    show ((s.entries.map (stopUpdate label now)).filter
      (isOpenFor l)).length ≤ 1
    refine le_trans (length_filter_map_le (isOpenFor l) (isOpenFor l)
      (stopUpdate label now) ?_ s.entries) (h l)
    intro e hq
    cases hopen : isOpenFor label e with
    | false =>
      have he : stopUpdate label now e = e := by simp [stopUpdate, hopen]
      rwa [he] at hq
    | true =>
      exfalso
      have hend : (stopUpdate label now e).end_time = some now := by
        simp [stopUpdate, hopen]
      have hc := (isOpenFor_iff l _).mp hq
      rw [hend] at hc
      exact Option.some_ne_none now hc.2
  · intro l
    exact h l
  · intro e he t ht
    cases hany : s.entries.any (isOpenFor label) with
    | true => exact ⟨e, by simp [start_time, hany, he], rfl, rfl, rfl, ht⟩
    | false =>
      refine ⟨e, ?_, rfl, rfl, rfl, ht⟩
      simp only [start_time, hany, Bool.false_eq_true, if_false]
      exact List.mem_append_left _ he
  · intro e he t ht
    have hf : isOpenFor label e = false := by
      rw [isOpenFor_eq_false_iff]
      rintro ⟨-, h2⟩
      rw [ht] at h2
      cases h2
    have hsu : stopUpdate label now e = e := by simp [stopUpdate, hf]
    refine ⟨e, ?_, rfl, rfl, rfl, ht⟩
    show e ∈ s.entries.map (stopUpdate label now)
    rw [← hsu]
    exact List.mem_map_of_mem _ he
  · intro e he t ht
    exact ⟨e, he, rfl, rfl, rfl, ht⟩

/-- Witness for C7: the empty store satisfies `atMostOneOpen`, and it is
preserved by a concrete `start` and a concrete `stop`. -/
theorem operations_preserve_invariants_witness :
    atMostOneOpen (start_time "work" ⟨4, 2⟩ emptyStore).2 ∧
    atMostOneOpen (stop_time "work" ⟨4, 3⟩ emptyStore).2 :=
  ⟨(operations_preserve_invariants "work" 4 ⟨4, 2⟩ emptyStore
      (fun l => by simp [emptyStore])).1,
   (operations_preserve_invariants "work" 4 ⟨4, 3⟩ emptyStore
      (fun l => by simp [emptyStore])).2.1⟩

/-! ## Claims C8 and C9 -/

/-- C8: initialization is idempotent: `CREATE TABLE IF NOT EXISTS` run on
an already-initialized store returns it unchanged, so running `init_db`
twice in a row yields the same store as running it once. -/
theorem init_db_idempotent :
    ∀ db : Option Store, init_db (some (init_db db)) = init_db db := by
  intro db
  cases db <;> rfl

/-- C9: the report is a pure read: for every store and month,
`get_hours` leaves the store exactly as it was (the operation is a single
`SELECT`; no row is inserted, deleted, or modified). -/
theorem get_hours_pure :
    ∀ (m : Nat) (s : Store), (get_hours m s).2 = s :=
  fun _ _ => rfl

/-! ## Claim C5: the report aggregation -/

/-- `str(n).zfill(2)` is injective on the month values SQLite's
`strftime('%m', ·)` can produce. -/
theorem zfill2_inj_on_months :
    ∀ a, a < 13 → ∀ b, b < 13 → zfill2 a = zfill2 b → a = b := by decide

/-- On genuine wall-clock months, the string comparison
`strftime('%m', start_time) = str(month).zfill(2)` coincides with
comparing the month components as numbers. -/
theorem monthMatches_eq (m : Nat) (e : TimeEntry) (hm1 : 1 ≤ m)
    (hm2 : m ≤ 12) (he1 : 1 ≤ e.start_time.month)
    (he2 : e.start_time.month ≤ 12) :
    monthMatches m e = (e.start_time.month == m) := by
  by_cases h : e.start_time.month = m
  · simp [monthMatches, h]
  · have hz : zfill2 e.start_time.month ≠ zfill2 m := fun hc =>
      h (zfill2_inj_on_months _ (by omega) _ (by omega) hc)
    simp [monthMatches, h, hz]

theorem mem_firstDedup_foldl (xs : List String) (x : String) :
    ∀ acc : List String,
      (x ∈ xs.foldl (fun acc y => if y ∈ acc then acc else acc ++ [y]) acc ↔
        x ∈ acc ∨ x ∈ xs) := by
  induction xs with
  | nil => intro acc; simp
  | cons a t ih =>
    intro acc
    rw [List.foldl_cons]
    by_cases h : a ∈ acc
    · rw [if_pos h, ih]
      constructor
      · rintro (hx | hx)
        · exact Or.inl hx
        · exact Or.inr (List.mem_cons_of_mem a hx)
      · rintro (hx | hx)
        · exact Or.inl hx
        · rcases List.mem_cons.mp hx with rfl | hx
          · exact Or.inl h
          · exact Or.inr hx
    · rw [if_neg h, ih]
      simp only [List.mem_append, List.mem_cons, List.mem_singleton]
      tauto

/-- The report's grouping covers exactly the labels of the selected
rows. -/
theorem mem_firstDedup (xs : List String) (x : String) :
    x ∈ firstDedup xs ↔ x ∈ xs := by
  rw [firstDedup, mem_firstDedup_foldl]
  simp

/-- Unfolding of the report's result list. -/
theorem get_hours_fst (m : Nat) (s : Store) :
    (get_hours m s).1 =
      (firstDedup ((s.entries.filter
          (fun e => monthMatches m e && e.end_time.isSome)).map
        (fun e => e.label))).map
        (fun l => (l, (((s.entries.filter
            (fun e => monthMatches m e && e.end_time.isSome)).filter
          (fun e => e.label == l)).map entryHours).sum)) := rfl

/-- C5: for a month `m` in `[1,12]` and a store of genuine wall-clock
timestamps (month components in `[1,12]`), the report aggregates exactly
the closed entries whose `start_time` month equals `m` regardless of
year: every returned pair is a label owning such an entry, paired with
the exact summed fractional-hour total over precisely those entries; every
such label is returned; and when no closed entry matches, the result is
the empty sequence. -/
theorem get_hours_correct (m : Nat) (s : Store)
    (hm : 1 ≤ m ∧ m ≤ 12)
    (hs : ∀ e ∈ s.entries,
      1 ≤ e.start_time.month ∧ e.start_time.month ≤ 12) :
    (∀ p ∈ (get_hours m s).1,
        p.2 = specHours m p.1 s ∧
        ∃ e ∈ s.entries, e.label = p.1 ∧ e.end_time ≠ none ∧
          e.start_time.month = m) ∧
    (∀ l : String,
        (∃ e ∈ s.entries, e.label = l ∧ e.end_time ≠ none ∧
          e.start_time.month = m) →
        ∃ q : ℚ, (l, q) ∈ (get_hours m s).1) ∧
    ((∀ e ∈ s.entries, ¬(e.end_time ≠ none ∧ e.start_time.month = m)) →
      (get_hours m s).1 = []) := by
  have hPe : ∀ e ∈ s.entries,
      ((monthMatches m e && e.end_time.isSome) = true ↔
        e.end_time ≠ none ∧ e.start_time.month = m) := by
    intro e he
    rw [Bool.and_eq_true,
      monthMatches_eq m e hm.1 hm.2 (hs e he).1 (hs e he).2]
    simp only [beq_iff_eq, Option.isSome_iff_ne_none]
    tauto
  have hsum : ∀ l : String,
      (((s.entries.filter
          (fun e => monthMatches m e && e.end_time.isSome)).filter
        (fun e => e.label == l)).map entryHours).sum = specHours m l s := by
    intro l
    rw [specHours, List.filter_filter]
    congr 1
    apply congrArg
    apply List.filter_congr
    intro e he
    rw [monthMatches_eq m e hm.1 hm.2 (hs e he).1 (hs e he).2]
    cases h1 : (e.label == l) <;> cases h2 : e.end_time.isSome <;>
      cases h3 : (e.start_time.month == m) <;> simp [h1, h2, h3]
  refine ⟨?_, ?_, ?_⟩
  · intro p hp
    rw [get_hours_fst] at hp
    obtain ⟨l, hl, rfl⟩ := List.mem_map.mp hp
    refine ⟨hsum l, ?_⟩
    rw [mem_firstDedup] at hl
    obtain ⟨e, he, rfl⟩ := List.mem_map.mp hl
    obtain ⟨hmem, hPb⟩ := List.mem_filter.mp he
    obtain ⟨hclosed, hmon⟩ := (hPe e hmem).mp hPb
    exact ⟨e, hmem, rfl, hclosed, hmon⟩
  · rintro l ⟨e, he, hlab, hclosed, hmon⟩
    have hsel : e ∈ s.entries.filter
        (fun e => monthMatches m e && e.end_time.isSome) :=
      List.mem_filter.mpr ⟨he, (hPe e he).mpr ⟨hclosed, hmon⟩⟩
    have hl : l ∈ firstDedup ((s.entries.filter
        (fun e => monthMatches m e && e.end_time.isSome)).map
      (fun e => e.label)) := by
      rw [mem_firstDedup]
      rw [← hlab]
      exact List.mem_map_of_mem _ hsel
    refine ⟨(((s.entries.filter
        (fun e => monthMatches m e && e.end_time.isSome)).filter
      (fun e => e.label == l)).map entryHours).sum, ?_⟩
    rw [get_hours_fst]
    exact List.mem_map_of_mem _ hl
  · intro hnone
    have hfil : s.entries.filter
        (fun e => monthMatches m e && e.end_time.isSome) = [] := by
      rw [List.filter_eq_nil_iff]
      intro e he hP
      exact hnone e he ((hPe e he).mp hP)
    rw [get_hours_fst, hfil]
    rfl

/-- Witness for C5: the one-closed-entry July store reports the label
`"work"` for month 7. -/
theorem get_hours_correct_witness :
    ∃ q : ℚ, ("work", q) ∈ (get_hours 7 julyStore).1 :=
  (get_hours_correct 7 julyStore (by decide)
      (by intro e he; simp [julyStore] at he; simp [he])).2.1 "work"
    ⟨{ id := 1, label := "work", start_time := ⟨7, 0⟩,
       end_time := some ⟨7, (1 : ℚ)/24⟩ },
     by simp [julyStore], rfl, by simp, rfl⟩

/-! ## Claim C6: start/stop/report round trip -/

/-- The stop `UPDATE` is the identity on a list holding no open entry
for the label. -/
theorem stopUpdate_map_id (label : String) (now : Timestamp)
    (l : List TimeEntry)
    (h : ∀ e ∈ l, ¬(e.label = label ∧ e.end_time = none)) :
    l.map (stopUpdate label now) = l := by
  have hid : ∀ e ∈ l, stopUpdate label now e = e := by
    intro e he
    have hf : isOpenFor label e = false :=
      (isOpenFor_eq_false_iff label e).mpr (h e he)
    simp [stopUpdate, hf]
  calc l.map (stopUpdate label now) = l.map id := List.map_congr_left hid
    _ = l := List.map_id _

/-- Counterexample to C6 as stated: the store holds one OPEN `"work"`
entry started in month 1; `T1 = ⟨2, 40⟩` and `T2 = ⟨2, 41⟩` satisfy every
stated precondition (`T2 > T1`, same month, no other `"work"` entry in
month 2), yet the round trip reports nothing for month 2: the start is
rejected (a session is already active) and the stop closes the old
month-1 entry, so the claimed pair `("work", (41-40)*24)` is absent. -/
theorem roundtrip_counterexample :
    (⟨2, 40⟩ : Timestamp).jd < (⟨2, 41⟩ : Timestamp).jd ∧
    (⟨2, 41⟩ : Timestamp).month = (⟨2, 40⟩ : Timestamp).month ∧
    oneOpenStore.entries.filter
      (fun e => e.label == "work" && e.start_time.month == 2) = [] ∧
    (get_hours 2 (stop_time "work" ⟨2, 41⟩
        (start_time "work" ⟨2, 40⟩ oneOpenStore).2).2).1 = [] ∧
    ("work", ((41 : ℚ) - 40) * 24) ∉
      (get_hours 2 (stop_time "work" ⟨2, 41⟩
        (start_time "work" ⟨2, 40⟩ oneOpenStore).2).2).1 := by
  refine ⟨by norm_num, rfl, by decide, rfl, ?_⟩
  have hres : (get_hours 2 (stop_time "work" ⟨2, 41⟩
      (start_time "work" ⟨2, 40⟩ oneOpenStore).2).2).1 = [] := rfl
  rw [hres]
  simp

/-- C6 as amended: the round trip needs, besides the stated
preconditions (same month, `T2 > T1`, no other entry for the label with
start month equal to `T1`'s), that NO open session for the label exists
at all — otherwise the start is rejected.  Then `start` at `T1` followed
by `stop` at `T2` makes the report for `T1`'s month contain the label
with exactly `(T2 - T1)` expressed in hours (exact rationals, hence
accurate to any number of decimal places). -/
theorem start_stop_roundtrip (label : String) (t1 t2 : Timestamp)
    (s : Store)
    (hopen : ∀ e ∈ s.entries, ¬(e.label = label ∧ e.end_time = none))
    (hmonth : ∀ e ∈ s.entries, e.label = label →
      e.start_time.month ≠ t1.month)
    (_hsame : t2.month = t1.month)
    (_hlt : t1.jd < t2.jd)
    (hm1 : 1 ≤ t1.month) (hm2 : t1.month ≤ 12)
    (hs : ∀ e ∈ s.entries,
      1 ≤ e.start_time.month ∧ e.start_time.month ≤ 12) :
    (label, (t2.jd - t1.jd) * 24) ∈
      (get_hours t1.month
        (stop_time label t2 (start_time label t1 s).2).2).1 := by
  have hany : s.entries.any (isOpenFor label) = false := by
    rw [List.any_eq_false]
    intro e he
    rw [isOpenFor_iff]
    exact hopen e he
  have hs1 : (start_time label t1 s).2.entries = s.entries ++
      [{ id := s.nextId, label := label, start_time := t1,
         end_time := none }] := by
    simp [start_time, hany]
  have hs2 : (stop_time label t2 (start_time label t1 s).2).2.entries =
      s.entries ++
      [{ id := s.nextId, label := label, start_time := t1,
         end_time := some t2 }] := by
    show ((start_time label t1 s).2.entries).map (stopUpdate label t2) = _
    rw [hs1, List.map_append, stopUpdate_map_id label t2 s.entries hopen]
    congr 1
    simp [stopUpdate, isOpenFor]
  have hP : (fun e => monthMatches t1.month e && e.end_time.isSome)
      { id := s.nextId, label := label, start_time := t1,
        end_time := some t2 } = true := by
    simp [monthMatches]
  have hAlab : ∀ e ∈ s.entries.filter
      (fun e => monthMatches t1.month e && e.end_time.isSome),
      (e.label == label) = false := by
    intro e he
    obtain ⟨hmem, hPe⟩ := List.mem_filter.mp he
    have hmm : monthMatches t1.month e = true := by
      rw [Bool.and_eq_true] at hPe
      exact hPe.1
    rw [monthMatches_eq t1.month e hm1 hm2 (hs e hmem).1
      (hs e hmem).2] at hmm
    have hmon : e.start_time.month = t1.month := by simpa using hmm
    rw [beq_eq_false_iff_ne]
    intro hle
    exact hmonth e hmem hle hmon
  rw [get_hours_fst, hs2, List.filter_append]
  have hfilce : List.filter
      (fun e : TimeEntry => monthMatches t1.month e && e.end_time.isSome)
      [{ id := s.nextId, label := label, start_time := t1,
         end_time := some t2 }] =
      [{ id := s.nextId, label := label, start_time := t1,
         end_time := some t2 }] := by
    rw [List.filter_cons, if_pos hP]
    rfl
  rw [hfilce, List.map_append]
  refine List.mem_map.mpr ⟨label, ?_, ?_⟩
  · rw [mem_firstDedup, List.mem_append]
    exact Or.inr (by simp)
  · have hAfil : (s.entries.filter
        (fun e => monthMatches t1.month e && e.end_time.isSome)).filter
        (fun e => e.label == label) = [] := by
      rw [List.filter_eq_nil_iff]
      intro e he
      simp [hAlab e he]
    rw [List.filter_append, hAfil]
    have hcefil : List.filter (fun e : TimeEntry => e.label == label)
        [{ id := s.nextId, label := label, start_time := t1,
           end_time := some t2 }] =
        [{ id := s.nextId, label := label, start_time := t1,
           end_time := some t2 }] := by
      simp
    rw [List.nil_append, hcefil]
    simp [entryHours, julianday]

/-- Witness for the amended C6: on the empty store, start at
`⟨3, 0⟩` and stop at `⟨3, 1⟩` (one julian day = 24 hours apart) make the
month-3 report contain `("work", 24 hours)`. -/
theorem start_stop_roundtrip_witness :
    ("work", (((⟨3, 1⟩ : Timestamp).jd - (⟨3, 0⟩ : Timestamp).jd) * 24)) ∈
      (get_hours 3 (stop_time "work" ⟨3, 1⟩
        (start_time "work" ⟨3, 0⟩ emptyStore).2).2).1 :=
  start_stop_roundtrip "work" ⟨3, 0⟩ ⟨3, 1⟩ emptyStore
    (by simp [emptyStore]) (by simp [emptyStore]) rfl (by norm_num)
    (by norm_num) (by norm_num) (by simp [emptyStore])
